import Mathlib

/-!
Shallow embedding of `source/MaaFramework/Task/TaskBase.cpp`: the task
execution core of the MaaFramework automation engine.

The Task Executor (`TaskBase`) drives one recognition pass over an ordered
candidate list (`run_recognition`), dispatches the action of the first
matching node (`run_action`), records execution history in the shared
runtime cache (`set_node_detail` / `set_task_detail`), and emits lifecycle
notifications (`notify`).

External collaborators (Recognizer, Actuator, Context pipeline data,
global debug option) are modelled as oracle functions bundled in `Env`;
the mutable executor/runtime state (tasker presence, runtime cache,
emitted notification trace) is the explicit state `TaskState`.  The
process-wide static node-id counter `s_global_node_id` is threaded
explicitly through `run_action` as a `Nat`.
-/

/-- Pipeline node configuration, as read by the core: `enabled` gates
participation in recognition, `focus` forces verbose notifications. -/
structure PipelineData where
  enabled : Bool
  focus : Bool
deriving DecidableEq, Repr

/-- A matched region (cv::Rect). -/
structure Box where
  x : Int
  y : Int
  w : Int
  h : Int
deriving DecidableEq, Repr

/-- Type `RecoResult`: the recognition outcome. `box = none` means no match;
a populated `box` is the match discriminator. -/
structure RecoResult where
  reco_id : Nat
  name : String
  box : Option Box
deriving DecidableEq, Repr

/-- The default-constructed `RecoResult {}` returned on guard failures. -/
def emptyRecoResult : RecoResult :=
  { reco_id := 0, name := "", box := none }

/-- Type `NodeDetail`: the execution record of one action run. -/
structure NodeDetail where
  node_id : Nat
  name : String
  reco_id : Nat
  completed : Bool
deriving DecidableEq, Repr

/-- The default-constructed `NodeDetail {}` returned on guard failures. -/
def emptyNodeDetail : NodeDetail :=
  { node_id := 0, name := "", reco_id := 0, completed := false }

/-- Type `TaskDetail`: per-task execution record with append-only node-id list. -/
structure TaskDetail where
  entry : String
  node_ids : List Nat
deriving DecidableEq, Repr

/-- Notification message kinds emitted by `TaskBase` (MaaMsg_Task_...). -/
inductive Msg where
  | nextListStarting
  | nextListSucceeded
  | nextListFailed
  | recognitionStarting
  | recognitionSucceeded
  | recognitionFailed
  | actionStarting
  | actionSucceeded
  | actionFailed
deriving DecidableEq, Repr

/-- Structured notification payload (the json `cb_detail` objects). -/
inductive Detail where
  | listD (task_id : Nat) (name : String) (list : List String)
  | recoD (task_id : Nat) (reco_id : Nat) (name : String)
  | nodeD (task_id : Nat) (node_id : Nat) (name : String)
deriving DecidableEq, Repr

/-- One emitted notification event. -/
abbrev Event := Msg × Detail

/-- First-key lookup in an association list; the runtime-cache maps are
modelled as association lists where setting a key prepends an entry. -/
def lookupKey {α β : Type} [DecidableEq α] (k : α) : List (α × β) → Option β
  | [] => none
  | (a, b) :: rest => if a = k then some b else lookupKey k rest

/-- The shared runtime cache: node records, latest-node-per-name mapping,
and task records. -/
structure RuntimeCache where
  node_details : List (Nat × NodeDetail)
  latest_node : List (String × Nat)
  task_details : List (Nat × TaskDetail)
deriving DecidableEq, Repr

def RuntimeCache.get_node_detail (c : RuntimeCache) (id : Nat) : Option NodeDetail :=
  lookupKey id c.node_details

def RuntimeCache.get_latest_node (c : RuntimeCache) (name : String) : Option Nat :=
  lookupKey name c.latest_node

def RuntimeCache.get_task_detail (c : RuntimeCache) (id : Nat) : Option TaskDetail :=
  lookupKey id c.task_details

def RuntimeCache.set_node_detail (c : RuntimeCache) (id : Nat) (d : NodeDetail) : RuntimeCache :=
  { c with node_details := (id, d) :: c.node_details }

def RuntimeCache.set_latest_node (c : RuntimeCache) (name : String) (id : Nat) : RuntimeCache :=
  { c with latest_node := (name, id) :: c.latest_node }

def RuntimeCache.set_task_detail (c : RuntimeCache) (id : Nat) (d : TaskDetail) : RuntimeCache :=
  { c with task_details := (id, d) :: c.task_details }

/-- Mutable state of one `TaskBase` instance together with the parts of
its tasker it mutates: `tasker` is the presence of the `tasker_` pointer,
`cache` the tasker's runtime cache, `events` the notification trace sent
through `tasker_->notify`.  `has_context` is the presence of `context_`. -/
structure TaskState where
  tasker : Bool
  cache : RuntimeCache
  task_id : Nat
  entry : String
  cur_task : String
  has_context : Bool
  events : List Event
deriving DecidableEq, Repr

/-- External oracles: the Context's pipeline-data table (total by contract),
the global debug-mode flag, the Recognizer bound to the current frame, and
the Actuator. -/
structure Env where
  pipeline : String → PipelineData
  debug : Bool
  recognize : String → RecoResult
  actuate : Box → Nat → PipelineData → Bool

/-- Method `TaskBase::notify`: forwards to the tasker's notification bus; silently
drops the event when `tasker_` is null. -/
def TaskState.notify (s : TaskState) (m : Msg) (d : Detail) : TaskState :=
  if s.tasker then { s with events := s.events ++ [(m, d)] } else s

/-- A captured frame; `cv::Mat::empty()` is `rows * cols = 0`. -/
structure Image where
  rows : Nat
  cols : Nat
deriving DecidableEq, Repr

def Image.isEmpty (im : Image) : Bool :=
  im.rows * im.cols == 0

/-- Result of one `run_recognition` call: the returned `RecoResult`, the
post-state, and (instrumentation) the candidates the Recognizer Adapter
was invoked on, in invocation order. -/
structure RecoRun where
  result : RecoResult
  state : TaskState
  invoked : List String
deriving Repr

/-- The candidate loop of `TaskBase::run_recognition` (lines 89-134):
skip disabled candidates, conditionally notify per-candidate
starting/succeeded/failed, short-circuit on the first populated box,
and notify list-level succeeded/failed. `cf` is `current_focus`
(the focus flag of `cur_task_`), `ld` is `reco_list_cb_detail`. -/
def reco_loop (env : Env) (cf : Bool) (ld : Detail) (s : TaskState) :
    List String → RecoRun
  | [] =>
    let s := if env.debug || cf then s.notify Msg.nextListFailed ld else s
    { result := emptyRecoResult, state := s, invoked := [] }
  | name :: rest =>
    let pd := env.pipeline name
    if pd.enabled then
      let s := if env.debug || pd.focus then
          s.notify Msg.recognitionStarting (Detail.recoD s.task_id 0 name)
        else s
      let result := env.recognize name
      let s := if env.debug || pd.focus then
          s.notify
            (if result.box.isSome then Msg.recognitionSucceeded else Msg.recognitionFailed)
            (Detail.recoD s.task_id result.reco_id name)
        else s
      if result.box.isSome then
        let s := if env.debug || cf then s.notify Msg.nextListSucceeded ld else s
        { result := result, state := s, invoked := [name] }
      else
        let r := reco_loop env cf ld s rest
        { r with invoked := name :: r.invoked }
    else
      reco_loop env cf ld s rest

/-- Method `TaskBase::run_recognition` (lines 62-135): guards on null context and
empty image, emits the conditional list-level starting event keyed on
`cur_task_`'s focus, then runs the candidate loop. -/
def run_recognition (env : Env) (s : TaskState) (image : Image) (list : List String) :
    RecoRun :=
  if s.has_context then
    if image.isEmpty then
      { result := emptyRecoResult, state := s, invoked := [] }
    else
      let cf := (env.pipeline s.cur_task).focus
      let ld := Detail.listD s.task_id s.cur_task list
      let s := if env.debug || cf then s.notify Msg.nextListStarting ld else s
      reco_loop env cf ld s list
  else
    { result := emptyRecoResult, state := s, invoked := [] }

/-- Method `TaskBase::set_task_detail` (lines 216-225): writes the task record
into the runtime cache; no-op when `tasker_` is null. -/
def set_task_detail (s : TaskState) (detail : TaskDetail) : TaskState :=
  if s.tasker then
    { s with cache := s.cache.set_task_detail s.task_id detail }
  else s

/-- Method `TaskBase::set_node_detail` (lines 199-214): writes the node record,
updates the latest-node mapping, and appends the node id to the owning
task record; no-op when `tasker_` is null. -/
def set_node_detail (s : TaskState) (node_id : Nat) (detail : NodeDetail) : TaskState :=
  if s.tasker then
    let cache := (s.cache.set_node_detail node_id detail).set_latest_node detail.name node_id
    let s := { s with cache := cache }
    let task_detail :=
      (s.cache.get_task_detail s.task_id).getD { entry := s.entry, node_ids := [] }
    let task_detail := { task_detail with node_ids := task_detail.node_ids ++ [node_id] }
    set_task_detail s task_detail
  else s

/-- Method `TaskBase::generate_node_id` (lines 194-197): pre-increment of the
process-wide static counter `s_global_node_id`. -/
def generate_node_id (g : Nat) : Nat := g + 1

/-- Result of one `run_action` call: the returned `NodeDetail`, the new
value of the global node-id counter, the post-state, and (instrumentation)
whether the Actuator Adapter was invoked. -/
structure ActionRun where
  result : NodeDetail
  node_counter : Nat
  state : TaskState
  actuated : Bool
deriving Repr

/-- Method `TaskBase::run_action` (lines 137-183): guards on null context and an
unpopulated box, conditionally notifies action starting (node id 0), runs
the Actuator, allocates a fresh node id, persists the record, and
conditionally notifies action succeeded/failed with the assigned id.
`g` is the current value of the static counter `s_global_node_id`. -/
def run_action (env : Env) (g : Nat) (s : TaskState) (reco : RecoResult) : ActionRun :=
  if s.has_context then
    match reco.box with
    | none => { result := emptyNodeDetail, node_counter := g, state := s, actuated := false }
    | some box =>
      let pd := env.pipeline reco.name
      let s := if env.debug || pd.focus then
          s.notify Msg.actionStarting (Detail.nodeD s.task_id 0 reco.name)
        else s
      let ret := env.actuate box reco.reco_id pd
      let node_id := generate_node_id g
      let result : NodeDetail :=
        { node_id := node_id, name := reco.name, reco_id := reco.reco_id, completed := ret }
      let s := set_node_detail s node_id result
      let s := if env.debug || pd.focus then
          s.notify
            (if result.completed then Msg.actionSucceeded else Msg.actionFailed)
            (Detail.nodeD s.task_id node_id reco.name)
        else s
      { result := result, node_counter := node_id, state := s, actuated := true }
  else
    { result := emptyNodeDetail, node_counter := g, state := s, actuated := false }

/-- Sequential `run_action` calls threading the process-wide counter:
each list entry is the executor state the call runs on together with its
recognition result (several executors may interleave in allocation
order). Returns the returned records in call order and the final counter. -/
def run_actions (env : Env) : Nat → List (TaskState × RecoResult) → List NodeDetail × Nat
  | g, [] => ([], g)
  | g, (s, reco) :: rest =>
    let a := run_action env g s reco
    let p := run_actions env a.node_counter rest
    (a.result :: p.1, p.2)

/-- The predicate selecting the first enabled, matching candidate. -/
def matchPred (env : Env) (n : String) : Bool :=
  (env.pipeline n).enabled && (env.recognize n).box.isSome

/-- The first enabled candidate, in list order, whose recognizer call
yields a populated region. -/
def firstEnabledMatch (env : Env) (l : List String) : Option String :=
  l.find? (matchPred env)

/-! ### Basic lemmas about `notify` -/

theorem notify_of_tasker {s : TaskState} (h : s.tasker = true) (m : Msg) (d : Detail) :
    s.notify m d = { s with events := s.events ++ [(m, d)] } := by
  simp [TaskState.notify, h]

theorem notify_of_no_tasker {s : TaskState} (h : s.tasker = false) (m : Msg) (d : Detail) :
    s.notify m d = s := by
  simp [TaskState.notify, h]

/-! ### The recognition loop: returned result and recognizer invocations -/

theorem reco_loop_result_invoked (env : Env) (cf : Bool) (ld : Detail) (l : List String) :
    ∀ s : TaskState,
      (reco_loop env cf ld s l).result
          = ((firstEnabledMatch env l).map env.recognize).getD emptyRecoResult
        ∧ (reco_loop env cf ld s l).invoked
          = (l.takeWhile fun n => !(matchPred env n)).filter (fun n => (env.pipeline n).enabled)
            ++ (firstEnabledMatch env l).toList
        ∧ List.Sublist (reco_loop env cf ld s l).invoked l := by
  induction l with
  | nil =>
    intro s
    simp [reco_loop, firstEnabledMatch]
  | cons n rest ih =>
    intro s
    by_cases he : (env.pipeline n).enabled = true
    · by_cases hm : (env.recognize n).box.isSome = true
      · have hp : matchPred env n = true := by simp [matchPred, he, hm]
        refine ⟨?_, ?_, ?_⟩
        · simp [reco_loop, he, hm, firstEnabledMatch, List.find?_cons_of_pos _ hp]
        · simp [reco_loop, he, hm, firstEnabledMatch, List.find?_cons_of_pos _ hp,
            List.takeWhile_cons, hp]
        · simp only [reco_loop, he, hm, if_true]
          exact (List.nil_sublist rest).cons₂ n
      · have hp : matchPred env n = false := by simp [matchPred, hm]
        have hfind : firstEnabledMatch env (n :: rest) = firstEnabledMatch env rest := by
          simp [firstEnabledMatch]
          exact List.find?_cons_of_neg _ (by simp [hp])
        have hRHS :
            ((n :: rest).takeWhile fun m => !(matchPred env m)).filter
                (fun m => (env.pipeline m).enabled)
              ++ (firstEnabledMatch env (n :: rest)).toList
            = n :: ((rest.takeWhile fun m => !(matchPred env m)).filter
                (fun m => (env.pipeline m).enabled)
              ++ (firstEnabledMatch env rest).toList) := by
          simp [List.takeWhile_cons, hp, List.filter_cons, he, hfind]
        refine ⟨?_, ?_, ?_⟩
        · simp only [reco_loop, he, hm, if_true, if_false, hfind]
          exact (ih _).1
        · simp only [reco_loop, he, hm, if_true, if_false]
          rw [hRHS]
          exact congrArg (n :: ·) (ih _).2.1
        · simp only [reco_loop, he, hm, if_true, if_false]
          exact ((ih _).2.2).cons₂ n
    · have hp : matchPred env n = false := by simp [matchPred, he]
      have hfind : firstEnabledMatch env (n :: rest) = firstEnabledMatch env rest := by
        simp [firstEnabledMatch]
        exact List.find?_cons_of_neg _ (by simp [hp])
      have hRHS :
          ((n :: rest).takeWhile fun m => !(matchPred env m)).filter
              (fun m => (env.pipeline m).enabled)
            ++ (firstEnabledMatch env (n :: rest)).toList
          = (rest.takeWhile fun m => !(matchPred env m)).filter
              (fun m => (env.pipeline m).enabled)
            ++ (firstEnabledMatch env rest).toList := by
        simp [List.takeWhile_cons, hp, List.filter_cons, he, hfind]
      refine ⟨?_, ?_, ?_⟩
      · simp only [reco_loop, he, if_false, hfind]
        exact (ih s).1
      · simp only [reco_loop, he, if_false]
        rw [hRHS]
        exact (ih s).2.1
      · simp only [reco_loop, he, if_false]
        exact ((ih s).2.2).cons n

/-- C1: on a non-empty frame with a bound context, `run_recognition`
invokes the recognizer exactly on the enabled candidates preceding the
first enabled match plus the match itself, in list order (a sublist of
the candidate list), and returns the recognizer's result for the first
enabled matching candidate, or the empty result if there is none. -/
theorem run_recognition_first_enabled_match (env : Env) (s : TaskState) (image : Image)
    (list : List String) (hc : s.has_context = true) (hi : image.isEmpty = false) :
    (run_recognition env s image list).invoked
        = (list.takeWhile fun n => !(matchPred env n)).filter (fun n => (env.pipeline n).enabled)
          ++ (firstEnabledMatch env list).toList
      ∧ List.Sublist (run_recognition env s image list).invoked list
      ∧ (run_recognition env s image list).result
        = ((firstEnabledMatch env list).map env.recognize).getD emptyRecoResult := by
  have h := reco_loop_result_invoked env (env.pipeline s.cur_task).focus
    (Detail.listD s.task_id s.cur_task list) list
  simp only [run_recognition, hc, hi, if_true, if_false, Bool.false_eq_true]
  exact ⟨(h _).2.1, (h _).2.2, (h _).1⟩

/-- C1 witness. -/
def envW : Env where
  pipeline := fun n =>
    { enabled := n != "off", focus := n == "entry" || n == "hit" }
  debug := false
  recognize := fun n =>
    if n == "hit" then { reco_id := 7, name := "hit", box := some ⟨10, 10, 5, 5⟩ }
    else { reco_id := 3, name := n, box := none }
  actuate := fun _ _ _ => false

def cacheW : RuntimeCache where
  node_details := []
  latest_node := []
  task_details := [(1, { entry := "entry", node_ids := [4] })]

def sW : TaskState where
  tasker := true
  cache := cacheW
  task_id := 1
  entry := "entry"
  cur_task := "entry"
  has_context := true
  events := []

def imgW : Image := { rows := 2, cols := 2 }

def imgEmptyW : Image := { rows := 0, cols := 5 }

theorem run_recognition_first_enabled_match_witness :
    (run_recognition envW sW imgW ["off", "miss", "hit", "late"]).invoked
        = ((["off", "miss", "hit", "late"].takeWhile fun n => !(matchPred envW n)).filter
            (fun n => (envW.pipeline n).enabled))
          ++ (firstEnabledMatch envW ["off", "miss", "hit", "late"]).toList
      ∧ List.Sublist (run_recognition envW sW imgW ["off", "miss", "hit", "late"]).invoked
          ["off", "miss", "hit", "late"]
      ∧ (run_recognition envW sW imgW ["off", "miss", "hit", "late"]).result
        = ((firstEnabledMatch envW ["off", "miss", "hit", "late"]).map envW.recognize).getD
            emptyRecoResult :=
  run_recognition_first_enabled_match envW sW imgW ["off", "miss", "hit", "late"] rfl rfl

/-- C2: with an empty frame or no bound context, `run_recognition`
returns the empty result, never invokes the Recognizer Adapter, and
leaves the state — in particular the notification trace — untouched
(the guards return before any event is emitted). Totality of the Lean
function reflects that no exception crosses the boundary. -/
theorem run_recognition_guard_noop (env : Env) (s : TaskState) (image : Image)
    (list : List String) (h : image.isEmpty = true ∨ s.has_context = false) :
    (run_recognition env s image list).result = emptyRecoResult
      ∧ (run_recognition env s image list).invoked = []
      ∧ (run_recognition env s image list).state = s := by
  rcases h with h | h
  · by_cases hc : s.has_context = true <;> simp [run_recognition, h, hc]
  · simp [run_recognition, h]

/-- C2 witness: empty frame. -/
theorem run_recognition_guard_noop_witness :
    (run_recognition envW sW imgEmptyW ["hit"]).result = emptyRecoResult
      ∧ (run_recognition envW sW imgEmptyW ["hit"]).invoked = []
      ∧ (run_recognition envW sW imgEmptyW ["hit"]).state = sW :=
  run_recognition_guard_noop envW sW imgEmptyW ["hit"] (Or.inl rfl)

/-- C3: `run_action` on an unmatched result (absent region) returns the
empty record, does not invoke the Actuator, does not advance the node-id
counter, and leaves the state — hence every runtime-cache entry
(`get_task_detail`, `get_node_detail`, `get_latest_node`) — unchanged. -/
theorem run_action_unmatched_noop (env : Env) (g : Nat) (s : TaskState) (reco : RecoResult)
    (h : reco.box = none) :
    (run_action env g s reco).result = emptyNodeDetail
      ∧ (run_action env g s reco).actuated = false
      ∧ (run_action env g s reco).node_counter = g
      ∧ (run_action env g s reco).state = s
      ∧ (∀ id, (run_action env g s reco).state.cache.get_node_detail id
          = s.cache.get_node_detail id)
      ∧ (∀ id, (run_action env g s reco).state.cache.get_task_detail id
          = s.cache.get_task_detail id)
      ∧ (∀ name, (run_action env g s reco).state.cache.get_latest_node name
          = s.cache.get_latest_node name) := by
  by_cases hc : s.has_context = true <;> simp [run_action, hc, h]

/-- C3 witness: an unmatched recognition result. -/
def recoMissW : RecoResult := { reco_id := 3, name := "miss", box := none }

theorem run_action_unmatched_noop_witness :
    (run_action envW 5 sW recoMissW).result = emptyNodeDetail
      ∧ (run_action envW 5 sW recoMissW).actuated = false
      ∧ (run_action envW 5 sW recoMissW).node_counter = 5
      ∧ (run_action envW 5 sW recoMissW).state = sW
      ∧ (∀ id, (run_action envW 5 sW recoMissW).state.cache.get_node_detail id
          = sW.cache.get_node_detail id)
      ∧ (∀ id, (run_action envW 5 sW recoMissW).state.cache.get_task_detail id
          = sW.cache.get_task_detail id)
      ∧ (∀ name, (run_action envW 5 sW recoMissW).state.cache.get_latest_node name
          = sW.cache.get_latest_node name) :=
  run_action_unmatched_noop envW 5 sW recoMissW rfl

/-! ### The matched path of `run_action` -/

/-- The `NodeDetail` built by `run_action` on a matched result. -/
def actionRecord (env : Env) (g : Nat) (reco : RecoResult) (b : Box) : NodeDetail :=
  { node_id := g + 1
  , name := reco.name
  , reco_id := reco.reco_id
  , completed := env.actuate b reco.reco_id (env.pipeline reco.name) }

/-- The notification events of one matched `run_action`: present exactly
when debug mode is on or the node's focus flag is set; the starting event
carries node id 0, the terminal event the assigned id. -/
def actionEvents (env : Env) (tid : Nat) (nid : Nat) (name : String) (completed : Bool) :
    List Event :=
  if env.debug || (env.pipeline name).focus then
    [(Msg.actionStarting, Detail.nodeD tid 0 name),
     ((if completed then Msg.actionSucceeded else Msg.actionFailed), Detail.nodeD tid nid name)]
  else []

/-- The runtime cache after a matched `run_action` with tasker present. -/
def actionCache (c : RuntimeCache) (tid : Nat) (entry : String) (d : NodeDetail) :
    RuntimeCache :=
  let c2 := (c.set_node_detail d.node_id d).set_latest_node d.name d.node_id
  let old := (c.get_task_detail tid).getD { entry := entry, node_ids := [] }
  c2.set_task_detail tid { entry := old.entry, node_ids := old.node_ids ++ [d.node_id] }

theorem run_action_matched_spec (env : Env) (g : Nat) (s : TaskState) (reco : RecoResult)
    (b : Box) (hc : s.has_context = true) (ht : s.tasker = true) (hb : reco.box = some b) :
    run_action env g s reco =
      { result := actionRecord env g reco b
      , node_counter := g + 1
      , state :=
          { s with
            cache := actionCache s.cache s.task_id s.entry (actionRecord env g reco b)
            events := s.events
              ++ actionEvents env s.task_id (g + 1) reco.name
                  (actionRecord env g reco b).completed }
      , actuated := true } := by
  by_cases hf : (env.debug || (env.pipeline reco.name).focus) = true <;>
    simp [run_action, hc, hb, hf, TaskState.notify, ht, set_node_detail, set_task_detail,
      generate_node_id, actionRecord, actionEvents, actionCache,
      RuntimeCache.set_node_detail, RuntimeCache.set_latest_node, RuntimeCache.set_task_detail,
      RuntimeCache.get_task_detail]

theorem run_action_no_tasker_spec (env : Env) (g : Nat) (s : TaskState) (reco : RecoResult)
    (b : Box) (hc : s.has_context = true) (hT : s.tasker = false) (hb : reco.box = some b) :
    run_action env g s reco =
      { result := actionRecord env g reco b
      , node_counter := g + 1
      , state := s
      , actuated := true } := by
  by_cases hf : (env.debug || (env.pipeline reco.name).focus) = true <;>
    simp [run_action, hc, hb, hf, TaskState.notify, hT, set_node_detail, set_task_detail,
      generate_node_id, actionRecord]

/-- C4: on a matched result with bound context and tasker, `run_action`
allocates a fresh node id (the incremented counter), returns a record
carrying that id, the matched name, the recognition id, and the exact
boolean reported by the Actuator Adapter (also when it is `false`), and
persists that record under the new id in the runtime cache. -/
theorem run_action_matched_record (env : Env) (g : Nat) (s : TaskState) (reco : RecoResult)
    (b : Box) (hc : s.has_context = true) (ht : s.tasker = true) (hb : reco.box = some b) :
    (run_action env g s reco).result.node_id = g + 1
      ∧ (run_action env g s reco).node_counter = g + 1
      ∧ (run_action env g s reco).result.name = reco.name
      ∧ (run_action env g s reco).result.reco_id = reco.reco_id
      ∧ (run_action env g s reco).result.completed
        = env.actuate b reco.reco_id (env.pipeline reco.name)
      ∧ (run_action env g s reco).state.cache.get_node_detail (g + 1)
        = some (run_action env g s reco).result := by
  rw [run_action_matched_spec env g s reco b hc ht hb]
  simp [actionRecord, actionCache, RuntimeCache.get_node_detail,
    RuntimeCache.set_node_detail, RuntimeCache.set_latest_node, RuntimeCache.set_task_detail,
    lookupKey]

/-- C4 witness: an actuator that reports `false`. -/
def recoHitW : RecoResult := { reco_id := 7, name := "hit", box := some ⟨10, 10, 5, 5⟩ }

theorem run_action_matched_record_witness :
    (run_action envW 5 sW recoHitW).result.node_id = 5 + 1
      ∧ (run_action envW 5 sW recoHitW).node_counter = 5 + 1
      ∧ (run_action envW 5 sW recoHitW).result.name = recoHitW.name
      ∧ (run_action envW 5 sW recoHitW).result.reco_id = recoHitW.reco_id
      ∧ (run_action envW 5 sW recoHitW).result.completed
        = envW.actuate ⟨10, 10, 5, 5⟩ recoHitW.reco_id (envW.pipeline recoHitW.name)
      ∧ (run_action envW 5 sW recoHitW).state.cache.get_node_detail (5 + 1)
        = some (run_action envW 5 sW recoHitW).result :=
  run_action_matched_record envW 5 sW recoHitW ⟨10, 10, 5, 5⟩ rfl rfl rfl

/-- C5: a successful `run_action` writes the node record and appends its
id to the owning task record as one step: afterwards the task detail for
the executor's task id equals the prior one (or the fresh record with the
task's entry) with exactly the new node id appended at the end, and the
node record is retrievable under the new id. -/
theorem run_action_appends_history (env : Env) (g : Nat) (s : TaskState) (reco : RecoResult)
    (b : Box) (hc : s.has_context = true) (ht : s.tasker = true) (hb : reco.box = some b) :
    (run_action env g s reco).state.cache.get_task_detail s.task_id
        = some
          { entry :=
              ((s.cache.get_task_detail s.task_id).getD
                { entry := s.entry, node_ids := [] }).entry
          , node_ids :=
              ((s.cache.get_task_detail s.task_id).getD
                { entry := s.entry, node_ids := [] }).node_ids
              ++ [(run_action env g s reco).result.node_id] }
      ∧ (run_action env g s reco).state.cache.get_node_detail
          (run_action env g s reco).result.node_id
        = some (run_action env g s reco).result := by
  rw [run_action_matched_spec env g s reco b hc ht hb]
  simp [actionRecord, actionCache, RuntimeCache.get_task_detail, RuntimeCache.get_node_detail,
    RuntimeCache.set_node_detail, RuntimeCache.set_latest_node, RuntimeCache.set_task_detail,
    lookupKey]

/-- C5 witness: the prior task record `[4]` becomes `[4, 6]`. -/
theorem run_action_appends_history_witness :
    (run_action envW 5 sW recoHitW).state.cache.get_task_detail sW.task_id
        = some
          { entry :=
              ((sW.cache.get_task_detail sW.task_id).getD
                { entry := sW.entry, node_ids := [] }).entry
          , node_ids :=
              ((sW.cache.get_task_detail sW.task_id).getD
                { entry := sW.entry, node_ids := [] }).node_ids
              ++ [(run_action envW 5 sW recoHitW).result.node_id] }
      ∧ (run_action envW 5 sW recoHitW).state.cache.get_node_detail
          (run_action envW 5 sW recoHitW).result.node_id
        = some (run_action envW 5 sW recoHitW).result :=
  run_action_appends_history envW 5 sW recoHitW ⟨10, 10, 5, 5⟩ rfl rfl rfl

/-- C9: with a null tasker but bound context, a matched `run_action`
still invokes the Actuator Adapter, still advances the node-id counter,
and still returns a fully populated record — name, recognition id and
the actuator's boolean included — while the runtime cache and the
notification trace (indeed the whole state) stay untouched. -/
theorem run_action_no_tasker_still_runs (env : Env) (g : Nat) (s : TaskState)
    (reco : RecoResult) (b : Box) (hc : s.has_context = true) (hT : s.tasker = false)
    (hb : reco.box = some b) :
    (run_action env g s reco).actuated = true
      ∧ (run_action env g s reco).result.node_id = g + 1
      ∧ (run_action env g s reco).result.name = reco.name
      ∧ (run_action env g s reco).result.reco_id = reco.reco_id
      ∧ (run_action env g s reco).result.completed
        = env.actuate b reco.reco_id (env.pipeline reco.name)
      ∧ (run_action env g s reco).node_counter = g + 1
      ∧ (run_action env g s reco).state = s := by
  rw [run_action_no_tasker_spec env g s reco b hc hT hb]
  simp [actionRecord]

/-- C9 witness: same executor state with the tasker dropped. -/
def sNoTaskerW : TaskState := { sW with tasker := false }

theorem run_action_no_tasker_still_runs_witness :
    (run_action envW 5 sNoTaskerW recoHitW).actuated = true
      ∧ (run_action envW 5 sNoTaskerW recoHitW).result.node_id = 5 + 1
      ∧ (run_action envW 5 sNoTaskerW recoHitW).result.name = recoHitW.name
      ∧ (run_action envW 5 sNoTaskerW recoHitW).result.reco_id = recoHitW.reco_id
      ∧ (run_action envW 5 sNoTaskerW recoHitW).result.completed
        = envW.actuate ⟨10, 10, 5, 5⟩ recoHitW.reco_id (envW.pipeline recoHitW.name)
      ∧ (run_action envW 5 sNoTaskerW recoHitW).node_counter = 5 + 1
      ∧ (run_action envW 5 sNoTaskerW recoHitW).state = sNoTaskerW :=
  run_action_no_tasker_still_runs envW 5 sNoTaskerW recoHitW ⟨10, 10, 5, 5⟩ rfl rfl rfl

/-- C10: every matched `run_action` with bound context and tasker
overwrites the latest-node mapping for the matched name with the freshly
allocated node id, independently of the boolean the actuator reported
(which is returned unchanged in the record). -/
theorem run_action_updates_latest_node (env : Env) (g : Nat) (s : TaskState)
    (reco : RecoResult) (b : Box) (hc : s.has_context = true) (ht : s.tasker = true)
    (hb : reco.box = some b) :
    (run_action env g s reco).state.cache.get_latest_node reco.name
        = some (run_action env g s reco).result.node_id
      ∧ (run_action env g s reco).result.completed
        = env.actuate b reco.reco_id (env.pipeline reco.name) := by
  rw [run_action_matched_spec env g s reco b hc ht hb]
  simp [actionRecord, actionCache, RuntimeCache.get_latest_node,
    RuntimeCache.set_node_detail, RuntimeCache.set_latest_node, RuntimeCache.set_task_detail,
    lookupKey]

/-- C10 witness: the actuator reports `false`, the mapping still moves. -/
theorem run_action_updates_latest_node_witness :
    (run_action envW 5 sW recoHitW).state.cache.get_latest_node recoHitW.name
        = some (run_action envW 5 sW recoHitW).result.node_id
      ∧ (run_action envW 5 sW recoHitW).result.completed
        = envW.actuate ⟨10, 10, 5, 5⟩ recoHitW.reco_id (envW.pipeline recoHitW.name) :=
  run_action_updates_latest_node envW 5 sW recoHitW ⟨10, 10, 5, 5⟩ rfl rfl rfl

/-! ### Node-id allocation -/

theorem run_action_counter (env : Env) (g : Nat) (s : TaskState) (reco : RecoResult)
    (hc : s.has_context = true) (hm : reco.box.isSome = true) :
    (run_action env g s reco).result.node_id = g + 1
      ∧ (run_action env g s reco).node_counter = g + 1 := by
  obtain ⟨b, hb⟩ := Option.isSome_iff_exists.mp hm
  cases htv : s.tasker
  · rw [run_action_no_tasker_spec env g s reco b hc htv hb]
    simp [actionRecord]
  · rw [run_action_matched_spec env g s reco b hc htv hb]
    simp [actionRecord]

theorem run_actions_ids_range (env : Env) :
    ∀ (l : List (TaskState × RecoResult)) (g : Nat),
      (∀ p ∈ l, (p.1).has_context = true ∧ (p.2).box.isSome = true) →
      (run_actions env g l).1.map NodeDetail.node_id = List.range' (g + 1) l.length
        ∧ (run_actions env g l).2 = g + l.length := by
  intro l
  induction l with
  | nil =>
    intro g h
    simp [run_actions]
  | cons p rest ih =>
    intro g h
    obtain ⟨hc, hm⟩ := h p (List.mem_cons_self p rest)
    have hcnt := run_action_counter env g p.1 p.2 hc hm
    have hr := ih (g + 1) (fun q hq => h q (List.mem_cons_of_mem p hq))
    refine ⟨?_, ?_⟩
    · simp only [run_actions, List.map_cons, List.length_cons, List.range'_succ]
      rw [hcnt.1, hcnt.2, hr.1]
    · simp only [run_actions, List.length_cons]
      rw [hcnt.2, hr.2]
      omega

/-- C7: across sequential matched `run_action` calls threading the
process-wide counter (possibly by several executors in allocation order),
the returned node ids are exactly the consecutive values above the prior
counter — hence pairwise distinct, strictly increasing in allocation
order, and never reused (the final counter sits above them all). -/
theorem run_actions_ids_distinct_increasing (env : Env) (l : List (TaskState × RecoResult))
    (g : Nat) (h : ∀ p ∈ l, (p.1).has_context = true ∧ (p.2).box.isSome = true) :
    (run_actions env g l).1.map NodeDetail.node_id = List.range' (g + 1) l.length
      ∧ List.Pairwise (· < ·) ((run_actions env g l).1.map NodeDetail.node_id)
      ∧ (run_actions env g l).2 = g + l.length := by
  have h1 := run_actions_ids_range env l g h
  refine ⟨h1.1, ?_, h1.2⟩
  rw [h1.1]
  exact List.pairwise_lt_range' _ _

/-- C7 witness: two executors (one without tasker) interleaved. -/
theorem run_actions_ids_distinct_increasing_witness :
    (run_actions envW 0 [(sW, recoHitW), (sNoTaskerW, recoHitW)]).1.map NodeDetail.node_id
        = List.range' (0 + 1) [(sW, recoHitW), (sNoTaskerW, recoHitW)].length
      ∧ List.Pairwise (· < ·)
          ((run_actions envW 0 [(sW, recoHitW), (sNoTaskerW, recoHitW)]).1.map
            NodeDetail.node_id)
      ∧ (run_actions envW 0 [(sW, recoHitW), (sNoTaskerW, recoHitW)]).2
        = 0 + [(sW, recoHitW), (sNoTaskerW, recoHitW)].length :=
  run_actions_ids_distinct_increasing envW [(sW, recoHitW), (sNoTaskerW, recoHitW)] 0
    (by intro p hp; fin_cases hp <;> exact ⟨rfl, rfl⟩)

/-! ### Notification traces of the recognition pass -/

/-- The per-candidate events of one evaluated (enabled) candidate:
emitted exactly when debug mode is on or that candidate's own focus flag
is set; the starting event carries recognition id 0, the terminal one
the id assigned by the recognizer. -/
def recoNodeEvents (env : Env) (tid : Nat) (n : String) : List Event :=
  if env.debug || (env.pipeline n).focus then
    [(Msg.recognitionStarting, Detail.recoD tid 0 n),
     ((if (env.recognize n).box.isSome then Msg.recognitionSucceeded else Msg.recognitionFailed),
      Detail.recoD tid (env.recognize n).reco_id n)]
  else []

/-- The per-candidate events of the whole loop: disabled candidates are
skipped silently, and the loop stops after the first enabled match. -/
def recoLoopEvents (env : Env) (tid : Nat) : List String → List Event
  | [] => []
  | n :: rest =>
    if (env.pipeline n).enabled then
      if (env.recognize n).box.isSome then recoNodeEvents env tid n
      else recoNodeEvents env tid n ++ recoLoopEvents env tid rest
    else recoLoopEvents env tid rest

/-- The terminal list-level event: succeeded when some enabled candidate
matched, failed otherwise; emitted exactly when debug mode is on or the
currently executing node's focus flag (`cf`) is set. -/
def recoEndEvents (env : Env) (cf : Bool) (ld : Detail) (l : List String) : List Event :=
  if env.debug || cf then
    [((if (firstEnabledMatch env l).isSome then Msg.nextListSucceeded else Msg.nextListFailed),
      ld)]
  else []


theorem reco_loop_events_aux (env : Env) (cf : Bool) (ld : Detail) :
    ∀ (l : List String) (ch : RuntimeCache) (tid : Nat) (en ct : String) (hcx : Bool)
      (ev : List Event),
      (reco_loop env cf ld ⟨true, ch, tid, en, ct, hcx, ev⟩ l).state
        = ⟨true, ch, tid, en, ct, hcx,
            ev ++ (recoLoopEvents env tid l ++ recoEndEvents env cf ld l)⟩ := by
  intro l
  induction l with
  | nil =>
    intro ch tid en ct hcx ev
    cases hcf : (env.debug || cf) <;>
      simp [reco_loop, recoLoopEvents, recoEndEvents, firstEnabledMatch, hcf,
        TaskState.notify]
  | cons n rest ih =>
    intro ch tid en ct hcx ev
    cases he : (env.pipeline n).enabled
    · have hfind : firstEnabledMatch env (n :: rest) = firstEnabledMatch env rest := by
        apply List.find?_cons_of_neg
        simp [matchPred, he]
      simp [reco_loop, recoLoopEvents, recoEndEvents, he, hfind, ih]
    · cases hm : (env.recognize n).box.isSome
      · have hfind : firstEnabledMatch env (n :: rest) = firstEnabledMatch env rest := by
          apply List.find?_cons_of_neg
          simp [matchPred, hm]
        cases hf : (env.debug || (env.pipeline n).focus) <;>
          simp [reco_loop, recoLoopEvents, recoNodeEvents, recoEndEvents, he, hm, hf,
            hfind, TaskState.notify, ih]
      · have hfind : firstEnabledMatch env (n :: rest) = some n := by
          apply List.find?_cons_of_pos
          simp [matchPred, he, hm]
        cases hf : (env.debug || (env.pipeline n).focus) <;>
        cases hcf : (env.debug || cf) <;>
          simp [reco_loop, recoLoopEvents, recoNodeEvents, recoEndEvents, he, hm, hf,
            hcf, hfind, TaskState.notify]

theorem reco_loop_events (env : Env) (cf : Bool) (ld : Detail) (l : List String)
    (s : TaskState) (ht : s.tasker = true) :
    (reco_loop env cf ld s l).state
      = { s with
          events := s.events ++ (recoLoopEvents env s.task_id l ++ recoEndEvents env cf ld l) } := by
  obtain ⟨tk, ch, tid, en, ct, hcx, ev⟩ := s
  cases tk
  · simp at ht
  · exact reco_loop_events_aux env cf ld l ch tid en ct hcx ev

/-- The full event trace of one `run_recognition` call on a non-empty
frame with bound context and tasker: the prior trace, then the
conditional list-level starting event, the per-candidate events, and the
terminal list-level event; the list-level condition reads the focus flag
of the currently executing node `cur_task`. -/
theorem run_recognition_events (env : Env) (s : TaskState) (image : Image)
    (list : List String) (hc : s.has_context = true) (hi : image.isEmpty = false)
    (ht : s.tasker = true) :
    (run_recognition env s image list).state
      = { s with
          events := s.events
            ++ ((if env.debug || (env.pipeline s.cur_task).focus then
                  [(Msg.nextListStarting, Detail.listD s.task_id s.cur_task list)]
                else [])
              ++ (recoLoopEvents env s.task_id list
                ++ recoEndEvents env (env.pipeline s.cur_task).focus
                    (Detail.listD s.task_id s.cur_task list) list)) } := by
  cases hcf : (env.debug || (env.pipeline s.cur_task).focus)
  · simp only [run_recognition, hc, hi, if_true, if_false, Bool.false_eq_true, hcf]
    rw [reco_loop_events env ((env.pipeline s.cur_task).focus)
      (Detail.listD s.task_id s.cur_task list) list s ht]
    simp [hcf, hc, ht]
  · simp only [run_recognition, hc, hi, if_true, if_false, Bool.false_eq_true, hcf]
    rw [notify_of_tasker ht]
    rw [reco_loop_events env ((env.pipeline s.cur_task).focus)
      (Detail.listD s.task_id s.cur_task list) list
      { s with events := s.events ++ [(Msg.nextListStarting, Detail.listD s.task_id s.cur_task list)] }
      ht]
    simp [hcf, hc, ht]

/-- C6: the per-node events of both phases. The recognition trace is the
conditional list-starting event followed by `recoLoopEvents` and the
terminal list event; `recoLoopEvents`/`recoNodeEvents` emit a candidate's
`Recognition.Starting` (id 0) and `Recognition.Succeeded/Failed` (assigned
id) exactly when debug mode is on or that candidate's focus flag is set.
The action trace appends `actionEvents`: `Action.Starting` (node id 0) and
`Action.Succeeded/Failed` (assigned id) exactly when debug mode is on or
the matched node's focus flag is set. -/
theorem per_node_events_iff_debug_or_focus (env : Env) (s t : TaskState) (image : Image)
    (list : List String) (g : Nat) (reco : RecoResult) (b : Box)
    (hts : s.tasker = true) (hcs : s.has_context = true) (hi : image.isEmpty = false)
    (htt : t.tasker = true) (hct : t.has_context = true) (hb : reco.box = some b) :
    (run_recognition env s image list).state.events
        = s.events
          ++ ((if env.debug || (env.pipeline s.cur_task).focus then
                [(Msg.nextListStarting, Detail.listD s.task_id s.cur_task list)]
              else [])
            ++ (recoLoopEvents env s.task_id list
              ++ recoEndEvents env (env.pipeline s.cur_task).focus
                  (Detail.listD s.task_id s.cur_task list) list))
      ∧ (run_action env g t reco).state.events
        = t.events
          ++ actionEvents env t.task_id (g + 1) reco.name
              (env.actuate b reco.reco_id (env.pipeline reco.name)) := by
  constructor
  · rw [run_recognition_events env s image list hcs hi hts]
  · rw [run_action_matched_spec env g t reco b hct htt hb]
    simp [actionRecord]

/-- C6 witness. -/
theorem per_node_events_iff_debug_or_focus_witness :
    (run_recognition envW sW imgW ["off", "miss", "hit"]).state.events
        = sW.events
          ++ ((if envW.debug || (envW.pipeline sW.cur_task).focus then
                [(Msg.nextListStarting, Detail.listD sW.task_id sW.cur_task
                    ["off", "miss", "hit"])]
              else [])
            ++ (recoLoopEvents envW sW.task_id ["off", "miss", "hit"]
              ++ recoEndEvents envW (envW.pipeline sW.cur_task).focus
                  (Detail.listD sW.task_id sW.cur_task ["off", "miss", "hit"])
                  ["off", "miss", "hit"]))
      ∧ (run_action envW 5 sW recoHitW).state.events
        = sW.events
          ++ actionEvents envW sW.task_id (5 + 1) recoHitW.name
              (envW.actuate ⟨10, 10, 5, 5⟩ recoHitW.reco_id (envW.pipeline recoHitW.name)) :=
  per_node_events_iff_debug_or_focus envW sW sW imgW ["off", "miss", "hit"] 5 recoHitW
    ⟨10, 10, 5, 5⟩ rfl rfl rfl rfl rfl rfl

/-! ### The two list-level terminal events are mutually exclusive -/

def isRecoMsg : Msg → Bool
  | Msg.recognitionStarting => true
  | Msg.recognitionSucceeded => true
  | Msg.recognitionFailed => true
  | _ => false

theorem recoNodeEvents_msgs (env : Env) (tid : Nat) (n : String) :
    ∀ e ∈ recoNodeEvents env tid n, isRecoMsg e.1 = true := by
  intro e he
  cases hf : (env.debug || (env.pipeline n).focus) <;> simp [recoNodeEvents, hf] at he
  rcases he with he | he
  · subst he; simp [isRecoMsg]
  · subst he
    cases hm : (env.recognize n).box.isSome <;> simp [hm, isRecoMsg]

theorem recoLoopEvents_msgs (env : Env) (tid : Nat) :
    ∀ (l : List String) (e : Event), e ∈ recoLoopEvents env tid l → isRecoMsg e.1 = true := by
  intro l
  induction l with
  | nil =>
    intro e he
    simp [recoLoopEvents] at he
  | cons n rest ih =>
    intro e he
    cases hen : (env.pipeline n).enabled
    · simp only [recoLoopEvents, hen, Bool.false_eq_true, if_false] at he
      exact ih e he
    · cases hm : (env.recognize n).box.isSome
      · simp only [recoLoopEvents, hen, hm, if_true, Bool.false_eq_true, if_false,
          List.mem_append] at he
        rcases he with he | he
        · exact recoNodeEvents_msgs env tid n e he
        · exact ih e he
      · simp only [recoLoopEvents, hen, hm, if_true] at he
        exact recoNodeEvents_msgs env tid n e he

/-- C8: within one `run_recognition` call on a non-empty frame with bound
context and tasker, `NextList.Succeeded` and `NextList.Failed` are never
both among the newly emitted messages; when an enabled candidate matches,
the call returns that candidate's result, never emits `NextList.Failed`,
and — when debug mode is on or the focus flag of the currently executing
node `cur_task` is set — ends with `NextList.Succeeded`; when the list is
exhausted without a match, it returns the empty result, never emits
`NextList.Succeeded`, and conditionally ends with `NextList.Failed`. -/
theorem next_list_events_exclusive (env : Env) (s : TaskState) (image : Image)
    (list : List String) (hc : s.has_context = true) (hi : image.isEmpty = false)
    (ht : s.tasker = true) :
    ¬(Msg.nextListSucceeded ∈ (((run_recognition env s image list).state.events.drop
            s.events.length).map Prod.fst)
        ∧ Msg.nextListFailed ∈ (((run_recognition env s image list).state.events.drop
            s.events.length).map Prod.fst))
      ∧ (∀ n, firstEnabledMatch env list = some n →
          (run_recognition env s image list).result = env.recognize n
            ∧ Msg.nextListFailed ∉ (((run_recognition env s image list).state.events.drop
                s.events.length).map Prod.fst)
            ∧ ((env.debug || (env.pipeline s.cur_task).focus) = true →
                ((((run_recognition env s image list).state.events.drop
                    s.events.length).map Prod.fst).getLast? = some Msg.nextListSucceeded)))
      ∧ (firstEnabledMatch env list = none →
          (run_recognition env s image list).result = emptyRecoResult
            ∧ Msg.nextListSucceeded ∉ (((run_recognition env s image list).state.events.drop
                s.events.length).map Prod.fst)
            ∧ ((env.debug || (env.pipeline s.cur_task).focus) = true →
                ((((run_recognition env s image list).state.events.drop
                    s.events.length).map Prod.fst).getLast? = some Msg.nextListFailed))) := by
  have htr := run_recognition_events env s image list hc hi ht
  have hnew : (run_recognition env s image list).state.events.drop s.events.length
      = (if env.debug || (env.pipeline s.cur_task).focus then
          [(Msg.nextListStarting, Detail.listD s.task_id s.cur_task list)]
        else [])
        ++ (recoLoopEvents env s.task_id list
          ++ recoEndEvents env (env.pipeline s.cur_task).focus
              (Detail.listD s.task_id s.cur_task list) list) := by
    rw [htr]
    exact List.drop_left _ _
  have hresult : (run_recognition env s image list).result
      = ((firstEnabledMatch env list).map env.recognize).getD emptyRecoResult := by
    simp only [run_recognition, hc, hi, if_true, if_false, Bool.false_eq_true]
    exact (reco_loop_result_invoked env (env.pipeline s.cur_task).focus
      (Detail.listD s.task_id s.cur_task list) list _).1
  have hchar : ∀ m ∈ (((run_recognition env s image list).state.events.drop
        s.events.length).map Prod.fst),
      isRecoMsg m = true ∨ m = Msg.nextListStarting
        ∨ ((env.debug || (env.pipeline s.cur_task).focus) = true
            ∧ m = (if (firstEnabledMatch env list).isSome then Msg.nextListSucceeded
                else Msg.nextListFailed)) := by
    intro m hm
    rw [hnew] at hm
    obtain ⟨e, he, hfst⟩ := List.mem_map.mp hm
    rcases List.mem_append.mp he with he1 | he2
    · cases hcf : (env.debug || (env.pipeline s.cur_task).focus) <;>
        rw [hcf] at he1 <;> simp at he1
      refine Or.inr (Or.inl ?_)
      rw [← hfst, he1]
    · rcases List.mem_append.mp he2 with he3 | he4
      · exact Or.inl (hfst ▸ recoLoopEvents_msgs env s.task_id list e he3)
      · cases hcf : (env.debug || (env.pipeline s.cur_task).focus) <;>
          simp only [recoEndEvents, hcf, Bool.false_eq_true, if_false, if_true] at he4
        · simp at he4
        · simp only [List.mem_singleton] at he4
          refine Or.inr (Or.inr ⟨rfl, ?_⟩)
          rw [← hfst, he4]
  refine ⟨?_, ?_, ?_⟩
  · rintro ⟨h1, h2⟩
    rcases hchar _ h1 with h | h | ⟨hcf, h⟩
    · simp [isRecoMsg] at h
    · simp at h
    · rcases hchar _ h2 with h' | h' | ⟨hcf', h'⟩
      · simp [isRecoMsg] at h'
      · simp at h'
      · cases hms : (firstEnabledMatch env list).isSome <;>
          rw [hms] at h h' <;> simp at h h'
  · intro n hn
    have hsome : (firstEnabledMatch env list).isSome = true := by simp [hn]
    refine ⟨?_, ?_, ?_⟩
    · simp [hresult, hn]
    · intro hmem
      rcases hchar _ hmem with h | h | ⟨hcf, h⟩
      · simp [isRecoMsg] at h
      · simp at h
      · rw [hsome] at h
        simp at h
    · intro hcf
      rw [hnew]
      simp only [recoEndEvents, hsome, hcf, if_true, List.map_append, List.map_cons,
        List.map_nil]
      rw [← List.append_assoc]
      exact List.getLast?_concat _
  · intro hn
    have hnone : (firstEnabledMatch env list).isSome = false := by simp [hn]
    refine ⟨?_, ?_, ?_⟩
    · simp [hresult, hn]
    · intro hmem
      rcases hchar _ hmem with h | h | ⟨hcf, h⟩
      · simp [isRecoMsg] at h
      · simp at h
      · rw [hnone] at h
        simp at h
    · intro hcf
      rw [hnew]
      simp only [recoEndEvents, hnone, hcf, if_true, Bool.false_eq_true, if_false,
        List.map_append, List.map_cons, List.map_nil]
      rw [← List.append_assoc]
      exact List.getLast?_concat _

/-- C8 witness. -/
theorem next_list_events_exclusive_witness :
    ¬(Msg.nextListSucceeded ∈ (((run_recognition envW sW imgW ["off", "miss", "hit"]).state.events.drop
            sW.events.length).map Prod.fst)
        ∧ Msg.nextListFailed ∈ (((run_recognition envW sW imgW ["off", "miss", "hit"]).state.events.drop
            sW.events.length).map Prod.fst))
      ∧ (∀ n, firstEnabledMatch envW ["off", "miss", "hit"] = some n →
          (run_recognition envW sW imgW ["off", "miss", "hit"]).result = envW.recognize n
            ∧ Msg.nextListFailed ∉ (((run_recognition envW sW imgW ["off", "miss", "hit"]).state.events.drop
                sW.events.length).map Prod.fst)
            ∧ ((envW.debug || (envW.pipeline sW.cur_task).focus) = true →
                ((((run_recognition envW sW imgW ["off", "miss", "hit"]).state.events.drop
                    sW.events.length).map Prod.fst).getLast? = some Msg.nextListSucceeded)))
      ∧ (firstEnabledMatch envW ["off", "miss", "hit"] = none →
          (run_recognition envW sW imgW ["off", "miss", "hit"]).result = emptyRecoResult
            ∧ Msg.nextListSucceeded ∉ (((run_recognition envW sW imgW ["off", "miss", "hit"]).state.events.drop
                sW.events.length).map Prod.fst)
            ∧ ((envW.debug || (envW.pipeline sW.cur_task).focus) = true →
                ((((run_recognition envW sW imgW ["off", "miss", "hit"]).state.events.drop
                    sW.events.length).map Prod.fst).getLast? = some Msg.nextListFailed))) :=
  next_list_events_exclusive envW sW imgW ["off", "miss", "hit"] rfl rfl rfl
